import Mathlib

/-!
Verification of the index construction and query engine of the imgstore
repository (src/imgstore/index.py, class ImgStoreIndex).

The SQLite database behind an ImgStoreIndex is modelled as explicit lists of
rows, one list per table, kept in rowid (insertion) order.  SQL REAL values
are modelled by an arbitrary linearly ordered commutative ring K; witnesses
instantiate K with the integers so that all statements evaluate by kernel
reduction.  Python code that can raise is modelled with Except String, the
message naming the Python exception.  A SQL ORDER BY clause is modelled by
sorting with List.insertionSort under the corresponding relation (SQL leaves
the order of ties unspecified; insertion sort picks one permissible order).
-/

deriving instance DecidableEq for Except

namespace ImgStore

/-- One row of the frames table:
CREATE TABLE frames (chunk INTEGER, frame_idx INTEGER, frame_number INTEGER, frame_time REAL). -/
structure FrameRecord (K : Type) where
  chunk : ℤ
  frame_idx : ℤ
  frame_number : ℤ
  frame_time : K
deriving DecidableEq

/-- A summary value as stored in the REAL column of the summary table.
Python floats include the two infinities and the not-a-number value, so the
model carries them alongside finite values. -/
inductive RVal (K : Type) where
  | fin : K → RVal K
  | posInf : RVal K
  | negInf : RVal K
  | nan : RVal K
deriving DecidableEq

/-- The four tables of the index database, each in rowid (insertion) order:
frames, chunks (chunk INTEGER, chunk_path TEXT),
index_information (name TEXT, value TEXT), summary (name TEXT, value REAL). -/
structure IndexDB (K : Type) where
  index_information : List (String × String)
  frames : List (FrameRecord K)
  chunks : List (ℤ × String)
  summary : List (String × RVal K)
deriving DecidableEq

/-- ImgStoreIndex.VERSION = "1". -/
def VERSION : String := "1"

/-- numpy.isreal tests whether the imaginary part of its argument is zero.
Every Python float satisfies this, including inf, -inf and nan; the function
is therefore constantly true on REAL summary values.  (It is not a
finiteness test: np.isreal(np.inf) is True.) -/
def np_isreal {K : Type} (_ : RVal K) : Bool := true

/-- The state of an opened ImgStoreIndex after __init__: the connection
(db), the path, the _chunk_n_and_chunk_paths argument (None on the
new_from_file path), and the attributes computed by __init__. -/
structure ImgStoreIndex (K : Type) where
  db : IndexDB K
  path : String
  chunk_n_and_chunk_paths : Option (List (ℤ × String))
  frame_count : ℕ
  frame_time_max : RVal K
  frame_time_min : RVal K
  frame_max : RVal K
  frame_min : RVal K
  chunks : List ℤ

/-- SELECT value FROM summary WHERE name = ? followed by cur.fetchone()[0]:
the first matching row, a TypeError if there is none. -/
def summaryLookup {K : Type} (db : IndexDB K) (name : String) : Except String (RVal K) :=
  match (db.summary.filter (fun p => p.1 == name)).head? with
  | none => .error "TypeError: NoneType is not subscriptable"
  | some p => .ok p.2

/-- SELECT chunk FROM chunks ORDER BY chunk. -/
def sortedChunks {K : Type} (db : IndexDB K) : List ℤ :=
  List.insertionSort (· ≤ ·) (db.chunks.map Prod.fst)

/-- ImgStoreIndex.__init__: check the stored version, compute frame_count as
SELECT COUNT(1) FROM frames, and when it is nonzero load the four summary
values, passing frame_max and frame_min through the np.isreal back-compat
check; when it is zero set frame_max = frame_min = nan and
frame_time_max = frame_time_min = 0.0.  Finally read the sorted chunk list. -/
def ImgStoreIndex.init {K : Type} [LinearOrderedCommRing K] (db : IndexDB K) (path : String)
    (chunk_n_and_chunk_paths : Option (List (ℤ × String))) :
    Except String (ImgStoreIndex K) :=
  match (db.index_information.filter (fun p => p.1 == "version")).head? with
  | none => .error "TypeError: cannot unpack None"
  | some p =>
    if p.2 ≠ VERSION then
      .error "IOError: incorrect index version"
    else if db.frames.length ≠ 0 then
      match summaryLookup db "frame_time_max" with
      | .error e => .error e
      | .ok ftmax =>
        match summaryLookup db "frame_time_min" with
        | .error e => .error e
        | .ok ftmin =>
          match summaryLookup db "frame_max" with
          | .error e => .error e
          | .ok fmax =>
            match summaryLookup db "frame_min" with
            | .error e => .error e
            | .ok fmin =>
              -- keep back compat for nan as types (inf -> nan)
              .ok { db := db, path := path
                    chunk_n_and_chunk_paths := chunk_n_and_chunk_paths
                    frame_count := db.frames.length
                    frame_time_max := ftmax, frame_time_min := ftmin
                    frame_max := if ¬ np_isreal fmax then RVal.nan else fmax
                    frame_min := if ¬ np_isreal fmin then RVal.nan else fmin
                    chunks := sortedChunks db }
    else
      .ok { db := db, path := path
            chunk_n_and_chunk_paths := chunk_n_and_chunk_paths
            frame_count := db.frames.length
            frame_time_max := RVal.fin 0, frame_time_min := RVal.fin 0
            frame_max := RVal.nan, frame_min := RVal.nan
            chunks := sortedChunks db }

/-- ImgStoreIndex.new_from_file: connect to the file and run __init__ with
chunk_n_and_chunk_paths=None.  The db argument stands for the tables read
from the file at the given path. -/
def new_from_file {K : Type} [LinearOrderedCommRing K] (db : IndexDB K) (path : String) :
    Except String (ImgStoreIndex K) :=
  ImgStoreIndex.init db path none

/-- The two key columns accepted by the query methods. -/
inductive Metavar where
  | frame_number : Metavar
  | frame_time : Metavar
deriving DecidableEq

/-- The value of the key column of a frames row, as a REAL (SQLite compares
INTEGER and REAL numerically, so frame_number is cast). -/
def keyVal {K : Type} [LinearOrderedCommRing K] : Metavar → FrameRecord K → K
  | .frame_number, f => (f.frame_number : K)
  | .frame_time, f => f.frame_time

/-- get_all_metadata: SELECT frame_number, frame_time FROM frames, with no
rowid all rows in rowid order; with positive rowid the single row WHERE
rowid={rowid} (rowids are 1-based positions); with rowid=0 reinterpreted as
rowid=1; with negative rowid ORDER BY rowid DESC LIMIT 1.  The result dict
of two parallel lists is modelled as the list of (frame_number, frame_time)
pairs. -/
def get_all_metadata {K : Type} (s : ImgStoreIndex K) (rowid : Option ℤ) : List (ℤ × K) :=
  match rowid with
  | none => s.db.frames.map (fun f => (f.frame_number, f.frame_time))
  | some r0 =>
    let r := if r0 = 0 then 1 else r0
    if 0 < r then
      match s.db.frames[(r - 1).toNat]? with
      | some f => [(f.frame_number, f.frame_time)]
      | none => []
    else
      match s.db.frames.getLast? with
      | some f => [(f.frame_number, f.frame_time)]
      | none => []

/-- FROM frames WHERE chunk={chunk_n}, in rowid order. -/
def chunkRows {K : Type} (s : ImgStoreIndex K) (chunk_n : ℤ) : List (FrameRecord K) :=
  s.db.frames.filter (fun f => f.chunk == chunk_n)

/-- The ORDER BY frame_number DESC relation used by get_chunk_interval. -/
def fnDesc {K : Type} (a b : FrameRecord K) : Prop :=
  b.frame_number ≤ a.frame_number

instance {K : Type} : DecidableRel (fnDesc (K := K)) :=
  fun a b => inferInstanceAs (Decidable (b.frame_number ≤ a.frame_number))

instance {K : Type} : IsTotal (FrameRecord K) fnDesc :=
  ⟨fun a b => le_total b.frame_number a.frame_number⟩

instance {K : Type} : IsTrans (FrameRecord K) fnDesc :=
  ⟨fun _ _ _ hab hbc => le_trans hbc hab⟩

/-- row_number() over (order by frame_number desc): number the rows of a
list starting from a given first row number. -/
def withRn {α : Type} : ℕ → List α → List (ℕ × α)
  | _, [] => []
  | i, a :: t => (i, a) :: withRn (i + 1) t

/-- The rows fetched by the get_chunk_interval query
SELECT {metavar} from (SELECT {metavar},
  row_number() over (order by frame_number desc) as rn,
  count(*) over () as total_count FROM frames WHERE chunk={chunk_n})
where rn=1 or rn=total_count ORDER BY rn DESC. -/
def intervalData {K : Type} [LinearOrderedCommRing K] (s : ImgStoreIndex K) (chunk_n : ℤ)
    (metavar : Metavar) : List K :=
  let sortedRows := List.insertionSort fnDesc (chunkRows s chunk_n)
  (((withRn 1 sortedRows).filter
      (fun p => p.1 == 1 || p.1 == sortedRows.length)).reverse).map
    (fun p => keyVal metavar p.2)

/-- get_chunk_interval: collect the rows of the window query into data, then
return None if data is empty and otherwise destructure it as
start, end = data, which raises ValueError unless data has exactly two
elements. -/
def get_chunk_interval {K : Type} [LinearOrderedCommRing K] (s : ImgStoreIndex K) (chunk_n : ℤ)
    (metavar : Metavar) : Except String (Option (K × K)) :=
  match intervalData s chunk_n metavar with
  | [] => .ok none
  | [a, b] => .ok (some (a, b))
  | _ => .error "ValueError: not enough values to unpack"

/-- The value of the chunk_index property: the two dicts
mapping each chunk to its get_chunk_interval result. -/
structure ChunkIndexData (K : Type) where
  frame_number_map : List (ℤ × Option (K × K))
  frame_time_map : List (ℤ × Option (K × K))

/-- The dict comprehension collecting get_chunk_interval over the chunk
list; the first raising chunk aborts the whole computation. -/
def intervalsFor {K : Type} [LinearOrderedCommRing K] (s : ImgStoreIndex K) (metavar : Metavar) :
    List ℤ → Except String (List (ℤ × Option (K × K)))
  | [] => .ok []
  | c :: rest =>
    match get_chunk_interval s c metavar with
    | .error e => .error e
    | .ok v =>
      match intervalsFor s metavar rest with
      | .error e => .error e
      | .ok l => .ok ((c, v) :: l)

/-- The chunk_index property.  It first sorts self._chunk_n_and_chunk_paths
to build the cache content hash, which raises a TypeError when that
attribute is None (the new_from_file path), before any cache lookup.  Then
it returns the memoized value (self._chunk_index) if set, else the on-disk
cached file if present, else computes the two interval dicts.  The memo and
the on-disk cache state are passed explicitly. -/
def chunk_index {K : Type} [LinearOrderedCommRing K] (s : ImgStoreIndex K)
    (memo cached : Option (ChunkIndexData K)) : Except String (ChunkIndexData K) :=
  match s.chunk_n_and_chunk_paths with
  | none => .error "TypeError: NoneType is not iterable"
  | some _ =>
    match memo with
    | some ci => .ok ci
    | none =>
      match cached with
      | some ci => .ok ci
      | none =>
        match intervalsFor s Metavar.frame_number s.chunks with
        | .error e => .error e
        | .ok fn =>
          match intervalsFor s Metavar.frame_time s.chunks with
          | .error e => .error e
          | .ok ft => .ok { frame_number_map := fn, frame_time_map := ft }

/-- get_chunk_and_frame_idx_: SELECT chunk, frame_idx FROM frames where
{metavar} = {value}; every fetched row is flattened into data via
data.extend(d); then chunk, frame_idx = data returns the pair when exactly
one row matched, returns None when none matched, and raises ValueError when
two or more matched (data then has four or more entries). -/
def get_chunk_and_frame_idx_ {K : Type} [LinearOrderedCommRing K] (s : ImgStoreIndex K)
    (value : K) (metavar : Metavar) : Except String (Option (ℤ × ℤ)) :=
  let data :=
    ((s.db.frames.filter (fun f => decide (keyVal metavar f = value))).map
      (fun f => [f.chunk, f.frame_idx])).flatten
  match data with
  | [] => .ok none
  | [c, i] => .ok (some (c, i))
  | _ => .error "ValueError: too many values to unpack"

/-- The what argument of find_chunk; the assert admits exactly these. -/
inductive FindWhat where
  | frame_number : FindWhat
  | frame_time : FindWhat
  | index : FindWhat
deriving DecidableEq

/-- Python int() truncates toward zero. -/
def intTrunc {K : Type} [LinearOrderedCommRing K] [FloorRing K] (x : K) : ℤ :=
  if x < 0 then -⌊-x⌋ else ⌊x⌋

/-- find_chunk: for what="index", SELECT chunk, frame_idx FROM frames ORDER
BY rowid LIMIT 1 OFFSET int(value) (SQLite treats a negative OFFSET as 0);
otherwise SELECT chunk, frame_idx FROM frames WHERE {what} = ? and fetch the
first row.  Unpacking cur.fetchone() raises TypeError when there is no row,
which is caught and turned into the sentinel (-1, -1). -/
def find_chunk {K : Type} [LinearOrderedCommRing K] [FloorRing K] (s : ImgStoreIndex K)
    (what : FindWhat) (value : K) : ℤ × ℤ :=
  let fetched : Option (FrameRecord K) :=
    match what with
    | .index => (s.db.frames.drop (intTrunc value).toNat).head?
    | .frame_number =>
      (s.db.frames.filter (fun f => decide ((f.frame_number : K) = value))).head?
    | .frame_time =>
      (s.db.frames.filter (fun f => decide (f.frame_time = value))).head?
  match fetched with
  | some f => (f.chunk, f.frame_idx)
  | none => (-1, -1)

/-- The direction argument of find_chunk_nearest; the code branches on
exactly these three values. -/
inductive Direction where
  | all : Direction
  | future : Direction
  | past : Direction
deriving DecidableEq

/-- The SQL ABS function. -/
def sqlAbs {K : Type} [LinearOrderedCommRing K] (x : K) : K :=
  if x < 0 then -x else x

/-- The ORDER BY ABS(value - key) relation of find_chunk_nearest. -/
def absRel {K : Type} [LinearOrderedCommRing K] (metavar : Metavar) (value : K)
    (a b : FrameRecord K) : Prop :=
  sqlAbs (value - keyVal metavar a) ≤ sqlAbs (value - keyVal metavar b)

instance {K : Type} [LinearOrderedCommRing K] (metavar : Metavar) (value : K) :
    DecidableRel (absRel (K := K) metavar value) :=
  fun a b =>
    inferInstanceAs
      (Decidable (sqlAbs (value - keyVal metavar a) ≤ sqlAbs (value - keyVal metavar b)))

/-- find_chunk_nearest: restrict the frames by the direction (future keeps
rows with value - key <= 0, past keeps rows with value - key >= 0, all keeps
everything), order the candidates by ABS(value - key) and fetch the first;
when the fetch yields nothing the method calls itself with direction="all".
The self-call is modelled with explicit fuel: each recursive call consumes
one unit, and none at fuel 0 stands for the recursion never producing a
value (in Python the self-recursion on an empty store runs until the
interpreter aborts it with RecursionError). -/
def find_chunk_nearest {K : Type} [LinearOrderedCommRing K] (s : ImgStoreIndex K)
    (query : Metavar) (value : K) (direction : Direction) : ℕ → Option (ℤ × ℤ)
  | 0 => none
  | fuel + 1 =>
    let candidates : List (FrameRecord K) :=
      match direction with
      | .all => s.db.frames
      | .future => s.db.frames.filter (fun f => decide (value - keyVal query f ≤ 0))
      | .past => s.db.frames.filter (fun f => decide (0 ≤ value - keyVal query f))
    match (List.insertionSort (absRel query value) candidates).head? with
    | some f => some (f.chunk, f.frame_idx)
    | none => find_chunk_nearest s query value Direction.all fuel

/-- One line of the connection dump consumed by to_file.  sqlite3
iterdump yields the transaction markers, one CREATE statement per table and
index, and one INSERT statement per row of each table, rows in rowid
order. -/
inductive Stmt (K : Type) where
  | beginTransaction : Stmt K
  | commitTransaction : Stmt K
  | createTable : String → Stmt K
  | insertFrame : FrameRecord K → Stmt K
  | insertChunk : ℤ → String → Stmt K
  | insertInfo : String → String → Stmt K
  | insertSummary : String → RVal K → Stmt K

/-- The SQL text of a dumped line, as far as the to_file filter inspects it:
Python sqlite3 iterdump spells the opening marker "BEGIN TRANSACTION;" and
the closing marker "COMMIT;". -/
def stmtLine {K : Type} : Stmt K → String
  | .beginTransaction => "BEGIN TRANSACTION;"
  | .commitTransaction => "COMMIT;"
  | .createTable sql => sql
  | .insertFrame _ => "INSERT INTO frames VALUES(?,?,?,?);"
  | .insertChunk _ _ => "INSERT INTO chunks VALUES(?,?);"
  | .insertInfo _ _ => "INSERT INTO index_information VALUES(?,?);"
  | .insertSummary _ _ => "INSERT INTO summary VALUES(?,?);"

/-- self._conn.iterdump(): tables in creation order (frames, chunks,
index_information, summary, then the chunk_index index), each CREATE
followed by that table's INSERT lines in rowid order, all wrapped in the
transaction markers. -/
def iterdump {K : Type} (db : IndexDB K) : List (Stmt K) :=
  [Stmt.beginTransaction]
    ++ [Stmt.createTable "CREATE TABLE frames (chunk INTEGER, frame_idx INTEGER, frame_number INTEGER, frame_time REAL);"]
    ++ db.frames.map Stmt.insertFrame
    ++ [Stmt.createTable "CREATE TABLE chunks (chunk INTEGER, chunk_path TEXT);"]
    ++ db.chunks.map (fun c => Stmt.insertChunk c.1 c.2)
    ++ [Stmt.createTable "CREATE TABLE index_information (name TEXT, value TEXT);"]
    ++ db.index_information.map (fun p => Stmt.insertInfo p.1 p.2)
    ++ [Stmt.createTable "CREATE TABLE summary (name TEXT, value REAL);"]
    ++ db.summary.map (fun p => Stmt.insertSummary p.1 p.2)
    ++ [Stmt.createTable "CREATE INDEX chunk_index ON frames (chunk, frame_idx);"]
    ++ [Stmt.commitTransaction]

/-- The freshly created target database of to_file: every table exists and
is empty. -/
def emptyDB {K : Type} : IndexDB K :=
  { index_information := [], frames := [], chunks := [], summary := [] }

/-- Executing one dumped line against the target database.  The transaction
markers and the CREATE statements do not change the table contents of a
fresh database; each INSERT appends one row to its table. -/
def execStmt {K : Type} (db : IndexDB K) : Stmt K → IndexDB K
  | .beginTransaction => db
  | .commitTransaction => db
  | .createTable _ => db
  | .insertFrame f => { db with frames := db.frames ++ [f] }
  | .insertChunk c p => { db with chunks := db.chunks ++ [(c, p)] }
  | .insertInfo n v => { db with index_information := db.index_information ++ [(n, v)] }
  | .insertSummary n v => { db with summary := db.summary ++ [(n, v)] }

/-- The to_file filter: line not in ("BEGIN;", "COMMIT;"). -/
def keepLine {K : Type} (st : Stmt K) : Bool :=
  !(stmtLine st == "BEGIN;" || stmtLine st == "COMMIT;")

/-- to_file(path): execute every dumped line whose text is neither "BEGIN;"
nor "COMMIT;" against a fresh database at path, and return that database.
(iterdump spells the opening marker "BEGIN TRANSACTION;", which this filter
does not catch; executing it on the fresh connection merely opens a
transaction, and the filtered-out "COMMIT;" is replaced by the commit that
Python issues when the with-block closes.) -/
def to_file {K : Type} (s : ImgStoreIndex K) : IndexDB K :=
  ((iterdump s.db).filter keepLine).foldl execStmt emptyDB

/-! Concrete stores over K = ℤ, used to evaluate the model on the worked
example of the specification and on the edge inputs of the claims. -/

/-- The (chunk, path) input set of the worked example. -/
def exPairs : List (ℤ × String) := [(0, "a"), (1, "b")]

/-- The database of the worked example: chunk 0 holds frame_number 10,11,12
with frame_time 100,110,120 and chunk 1 holds 13,14 with 130,140. -/
def exDB : IndexDB ℤ :=
  { index_information := [("version", "1")]
    frames := [⟨0, 0, 10, 100⟩, ⟨0, 1, 11, 110⟩, ⟨0, 2, 12, 120⟩, ⟨1, 0, 13, 130⟩, ⟨1, 1, 14, 140⟩]
    chunks := [(0, "a"), (1, "b")]
    summary := [("frame_time_min", RVal.fin 100), ("frame_time_max", RVal.fin 140),
                ("frame_min", RVal.fin 10), ("frame_max", RVal.fin 14)] }

/-- The worked example store as opened by __init__. -/
def exStore : ImgStoreIndex ℤ :=
  { db := exDB, path := "", chunk_n_and_chunk_paths := some exPairs
    frame_count := 5
    frame_time_max := RVal.fin 140, frame_time_min := RVal.fin 100
    frame_max := RVal.fin 14, frame_min := RVal.fin 10
    chunks := [0, 1] }

/-- A database whose only chunk holds a single frame. -/
def exSingleDB : IndexDB ℤ :=
  { index_information := [("version", "1")]
    frames := [⟨0, 0, 10, 100⟩]
    chunks := [(0, "a")]
    summary := [("frame_time_min", RVal.fin 100), ("frame_time_max", RVal.fin 100),
                ("frame_min", RVal.fin 10), ("frame_max", RVal.fin 10)] }

/-- The single-frame store as opened by __init__. -/
def exSingle : ImgStoreIndex ℤ :=
  { db := exSingleDB, path := "", chunk_n_and_chunk_paths := some [(0, "a")]
    frame_count := 1
    frame_time_max := RVal.fin 100, frame_time_min := RVal.fin 100
    frame_max := RVal.fin 10, frame_min := RVal.fin 10
    chunks := [0] }

/-- A database with no frames at all. -/
def exEmptyDB : IndexDB ℤ :=
  { index_information := [("version", "1")], frames := [], chunks := [], summary := [] }

/-- The empty store as opened by __init__ (zero-frame branch). -/
def exEmpty : ImgStoreIndex ℤ :=
  { db := exEmptyDB, path := "", chunk_n_and_chunk_paths := some []
    frame_count := 0
    frame_time_max := RVal.fin 0, frame_time_min := RVal.fin 0
    frame_max := RVal.nan, frame_min := RVal.nan
    chunks := [] }

/-- A database in which two frames share the frame_number 5. -/
def exDupDB : IndexDB ℤ :=
  { index_information := [("version", "1")]
    frames := [⟨0, 0, 5, 1⟩, ⟨0, 1, 5, 2⟩]
    chunks := [(0, "a")]
    summary := [("frame_time_min", RVal.fin 1), ("frame_time_max", RVal.fin 2),
                ("frame_min", RVal.fin 5), ("frame_max", RVal.fin 5)] }

/-- The duplicate-key store as opened by __init__. -/
def exDup : ImgStoreIndex ℤ :=
  { db := exDupDB, path := "", chunk_n_and_chunk_paths := some [(0, "a")]
    frame_count := 2
    frame_time_max := RVal.fin 2, frame_time_min := RVal.fin 1
    frame_max := RVal.fin 5, frame_min := RVal.fin 5
    chunks := [0] }

/-- A database with one frame whose stored frame_max summary value is the
historical infinite encoding of "no value". -/
def dbInf : IndexDB ℤ :=
  { index_information := [("version", "1")]
    frames := [⟨0, 0, 1, 1⟩]
    chunks := [(0, "a")]
    summary := [("frame_time_min", RVal.fin 1), ("frame_time_max", RVal.fin 1),
                ("frame_min", RVal.fin 1), ("frame_max", RVal.posInf)] }

/-- The store obtained by opening dbInf: the infinite frame_max survives the
np.isreal check untouched. -/
def sInf : ImgStoreIndex ℤ :=
  { db := dbInf, path := "", chunk_n_and_chunk_paths := none
    frame_count := 1
    frame_time_max := RVal.fin 1, frame_time_min := RVal.fin 1
    frame_max := RVal.posInf, frame_min := RVal.fin 1
    chunks := [0] }

/-- The worked example store as reopened from a file (new_from_file leaves
chunk_n_and_chunk_paths as None). -/
def exStoreF : ImgStoreIndex ℤ :=
  { exStore with path := "p", chunk_n_and_chunk_paths := none }

/-! Opening theorems for the concrete stores. -/

/-- Opening the worked example database yields exStore. -/
theorem exStore_init : ImgStoreIndex.init exDB "" (some exPairs) = Except.ok exStore := rfl

/-- Opening the single-frame database yields exSingle. -/
theorem exSingle_init : ImgStoreIndex.init exSingleDB "" (some [(0, "a")]) = Except.ok exSingle :=
  rfl

/-- Opening the empty database yields exEmpty. -/
theorem exEmpty_init : ImgStoreIndex.init exEmptyDB "" (some []) = Except.ok exEmpty := rfl

/-- Opening the duplicate-key database yields exDup. -/
theorem exDup_init : ImgStoreIndex.init exDupDB "" (some [(0, "a")]) = Except.ok exDup := rfl

/-! Helper lemmas about the row-numbering and sorting building blocks. -/

/-- Every row number produced by withRn k is at least k. -/
theorem withRn_mem_le {α : Type} :
    ∀ (k : ℕ) (l : List α) (p : ℕ × α), p ∈ withRn k l → k ≤ p.1 := by
  intro k l
  induction l generalizing k with
  | nil => intro p hp; simp [withRn] at hp
  | cons a t ih =>
    intro p hp
    rcases List.mem_cons.mp hp with h | h
    · subst h; exact le_refl _
    · exact le_trans (Nat.le_succ k) (ih (k + 1) p h)

/-- Filtering the numbered rows of b :: u for the final row number keeps
exactly the last row. -/
theorem withRn_filter_last {α : Type} :
    ∀ (u : List α) (b : α) (k : ℕ),
      (withRn k (b :: u)).filter (fun p => p.1 == k + u.length)
        = [(k + u.length, (b :: u).getLast (by simp))] := by
  intro u
  induction u with
  | nil => intro b k; simp [withRn]
  | cons c v ih =>
    intro b k
    have harith : k + (c :: v).length = (k + 1) + v.length := by
      simp [List.length_cons]; omega
    have hhead : (k == k + (c :: v).length) = false := by
      simp [List.length_cons]
    calc (withRn k (b :: c :: v)).filter (fun p => p.1 == k + (c :: v).length)
        = (withRn (k + 1) (c :: v)).filter (fun p => p.1 == k + (c :: v).length) := by
          simp [withRn, List.filter_cons, hhead]
      _ = (withRn (k + 1) (c :: v)).filter (fun p => p.1 == (k + 1) + v.length) := by
          rw [harith]
      _ = [((k + 1) + v.length, (c :: v).getLast (by simp))] := ih c (k + 1)
      _ = [(k + (c :: v).length, (b :: c :: v).getLast (by simp))] := by
          rw [harith]; rfl

/-- Filtering the numbered rows of a list of length at least two for the
first and the last row number keeps exactly the head and the last row. -/
theorem withRn_filter_ends {α : Type} :
    ∀ (u : List α) (b : α), u ≠ [] →
      (withRn 1 (b :: u)).filter (fun p => p.1 == 1 || p.1 == (b :: u).length)
        = [(1, b), ((b :: u).length, (b :: u).getLast (by simp))] := by
  intro u b hu
  cases u with
  | nil => exact absurd rfl hu
  | cons c v =>
    have htail :
        (withRn 2 (c :: v)).filter (fun p => p.1 == 1 || p.1 == (b :: c :: v).length)
          = (withRn 2 (c :: v)).filter (fun p => p.1 == 2 + v.length) := by
      apply List.filter_congr
      intro p hp
      have h2 : 2 ≤ p.1 := withRn_mem_le 2 (c :: v) p hp
      have hne1 : (p.1 == 1) = false := by
        simp only [beq_eq_false_iff_ne, ne_eq]; omega
      have hlen : (b :: c :: v).length = 2 + v.length := by
        simp [List.length_cons]; omega
      rw [hlen, hne1, Bool.false_or]
    have hfin := withRn_filter_last v c 2
    calc (withRn 1 (b :: c :: v)).filter (fun p => p.1 == 1 || p.1 == (b :: c :: v).length)
        = (1, b) ::
            (withRn 2 (c :: v)).filter (fun p => p.1 == 1 || p.1 == (b :: c :: v).length) := by
          simp [withRn, List.filter_cons]
      _ = (1, b) :: (withRn 2 (c :: v)).filter (fun p => p.1 == 2 + v.length) := by
          rw [htail]
      _ = [(1, b), (2 + v.length, (c :: v).getLast (by simp))] := by
          rw [hfin]
      _ = [(1, b), ((b :: c :: v).length, (b :: c :: v).getLast (by simp))] := by
          have : (b :: c :: v).length = 2 + v.length := by simp [List.length_cons]; omega
          rw [this]; rfl

/-- In a list sorted by descending frame_number, the head has the largest
frame_number. -/
theorem sorted_head_fn_max {K : Type} {l : List (FrameRecord K)}
    (hs : List.Sorted fnDesc l) (hne : l ≠ []) :
    ∀ r ∈ l, r.frame_number ≤ (l.head hne).frame_number := by
  cases l with
  | nil => exact absurd rfl hne
  | cons a t =>
    intro r hr
    rcases List.mem_cons.mp hr with h | h
    · subst h; exact le_refl _
    · exact (List.sorted_cons.mp hs).1 r h

/-- In a list sorted by descending frame_number, the last element has the
smallest frame_number. -/
theorem sorted_getLast_fn_min {K : Type} :
    ∀ (l : List (FrameRecord K)), List.Sorted fnDesc l → ∀ (hne : l ≠ []),
      ∀ r ∈ l, (l.getLast hne).frame_number ≤ r.frame_number := by
  intro l
  induction l with
  | nil => intro _ hne; exact absurd rfl hne
  | cons a t ih =>
    intro hs hne r hr
    cases t with
    | nil =>
      rcases List.mem_cons.mp hr with h | h
      · subst h; exact le_refl _
      · simp at h
    | cons c v =>
      have htne : c :: v ≠ [] := by simp
      have hlast : (a :: c :: v).getLast hne = (c :: v).getLast htne := rfl
      rcases List.mem_cons.mp hr with h | h
      · subst h
        have hmem2 : (c :: v).getLast htne ∈ c :: v := List.getLast_mem htne
        have := (List.sorted_cons.mp hs).1 _ hmem2
        rw [hlast]; exact this
      · rw [hlast]; exact ih (List.sorted_cons.mp hs).2 htne r h

/-- Dissection of a successful __init__: the opened store keeps the
database, the path and the chunk_n_and_chunk_paths argument, its
frame_count is the frames row count, and reopening the same database with
another path and chunk set succeeds with only those two fields changed. -/
theorem init_ok_full {K : Type} [LinearOrderedCommRing K] {db : IndexDB K} {p : String}
    {c : Option (List (ℤ × String))} {s : ImgStoreIndex K}
    (h : ImgStoreIndex.init db p c = Except.ok s) (p2 : String)
    (c2 : Option (List (ℤ × String))) :
    s.db = db ∧ s.path = p ∧ s.chunk_n_and_chunk_paths = c ∧
      s.frame_count = db.frames.length ∧
      ImgStoreIndex.init db p2 c2 =
        Except.ok { s with path := p2, chunk_n_and_chunk_paths := c2 } := by
  unfold ImgStoreIndex.init at h ⊢
  cases hv : (db.index_information.filter (fun q => q.1 == "version")).head? with
  | none =>
    rw [hv] at h
    dsimp only at h
    exact absurd h (by simp)
  | some pr =>
    rw [hv] at h
    dsimp only at h ⊢
    by_cases hver : pr.2 ≠ VERSION
    · rw [if_pos hver] at h
      exact absurd h (by simp)
    · rw [if_neg hver] at h ⊢
      by_cases hfc : db.frames.length ≠ 0
      · rw [if_pos hfc] at h ⊢
        cases h1 : summaryLookup db "frame_time_max" with
        | error e =>
          rw [h1] at h
          dsimp only at h
          exact absurd h (by simp)
        | ok ftmax =>
          rw [h1] at h
          dsimp only at h ⊢
          cases h2 : summaryLookup db "frame_time_min" with
          | error e =>
            rw [h2] at h
            dsimp only at h
            exact absurd h (by simp)
          | ok ftmin =>
            rw [h2] at h
            dsimp only at h ⊢
            cases h3 : summaryLookup db "frame_max" with
            | error e =>
              rw [h3] at h
              dsimp only at h
              exact absurd h (by simp)
            | ok fmax =>
              rw [h3] at h
              dsimp only at h ⊢
              cases h4 : summaryLookup db "frame_min" with
              | error e =>
                rw [h4] at h
                dsimp only at h
                exact absurd h (by simp)
              | ok fmin =>
                rw [h4] at h
                dsimp only at h ⊢
                injection h with h5
                subst h5
                exact ⟨rfl, rfl, rfl, rfl, rfl⟩
      · rw [if_neg hfc] at h ⊢
        injection h with h5
        subst h5
        exact ⟨rfl, rfl, rfl, rfl, rfl⟩

/-- Replaying the frame INSERT lines of the dump appends those rows. -/
theorem foldl_insertFrames {K : Type} (l : List (FrameRecord K)) :
    ∀ (d : IndexDB K),
      (l.map Stmt.insertFrame).foldl execStmt d = { d with frames := d.frames ++ l } := by
  induction l with
  | nil => intro d; simp
  | cons a t ih => intro d; simp [execStmt, ih]

/-- Replaying the chunk INSERT lines of the dump appends those rows. -/
theorem foldl_insertChunks {K : Type} (l : List (ℤ × String)) :
    ∀ (d : IndexDB K),
      (l.map (fun c => Stmt.insertChunk c.1 c.2)).foldl execStmt d
        = { d with chunks := d.chunks ++ l } := by
  induction l with
  | nil => intro d; simp
  | cons a t ih => intro d; simp [execStmt, ih]

/-- Replaying the index_information INSERT lines of the dump appends those
rows. -/
theorem foldl_insertInfos {K : Type} (l : List (String × String)) :
    ∀ (d : IndexDB K),
      (l.map (fun q => Stmt.insertInfo q.1 q.2)).foldl execStmt d
        = { d with index_information := d.index_information ++ l } := by
  induction l with
  | nil => intro d; simp
  | cons a t ih => intro d; simp [execStmt, ih]

/-- Replaying the summary INSERT lines of the dump appends those rows. -/
theorem foldl_insertSummaries {K : Type} (l : List (String × RVal K)) :
    ∀ (d : IndexDB K),
      (l.map (fun q => Stmt.insertSummary q.1 q.2)).foldl execStmt d
        = { d with summary := d.summary ++ l } := by
  induction l with
  | nil => intro d; simp
  | cons a t ih => intro d; simp [execStmt, ih]

/-- Replaying the kept lines of a dump against a fresh database rebuilds
the dumped database exactly. -/
theorem restore_iterdump {K : Type} (db : IndexDB K) :
    ((iterdump db).filter keepLine).foldl execStmt emptyDB = db := by
  obtain ⟨i, f, c, m⟩ := db
  have hF : (f.map Stmt.insertFrame).filter keepLine = f.map Stmt.insertFrame :=
    List.filter_eq_self.mpr (by
      intro x hx
      obtain ⟨a, _, rfl⟩ := List.mem_map.mp hx
      rfl)
  have hC : ((c.map (fun q => Stmt.insertChunk q.1 q.2)).filter keepLine :
        List (Stmt K)) = c.map (fun q => Stmt.insertChunk q.1 q.2) :=
    List.filter_eq_self.mpr (by
      intro x hx
      obtain ⟨a, _, rfl⟩ := List.mem_map.mp hx
      rfl)
  have hI : ((i.map (fun q => Stmt.insertInfo q.1 q.2)).filter keepLine :
        List (Stmt K)) = i.map (fun q => Stmt.insertInfo q.1 q.2) :=
    List.filter_eq_self.mpr (by
      intro x hx
      obtain ⟨a, _, rfl⟩ := List.mem_map.mp hx
      rfl)
  have hS : ((m.map (fun q => Stmt.insertSummary q.1 q.2)).filter keepLine :
        List (Stmt K)) = m.map (fun q => Stmt.insertSummary q.1 q.2) :=
    List.filter_eq_self.mpr (by
      intro x hx
      obtain ⟨a, _, rfl⟩ := List.mem_map.mp hx
      rfl)
  have h1 : (List.filter keepLine [(Stmt.beginTransaction : Stmt K)])
      = [Stmt.beginTransaction] := rfl
  have h2 : (List.filter keepLine [(Stmt.commitTransaction : Stmt K)]) = [] := rfl
  have h3 : (List.filter keepLine
      [(Stmt.createTable "CREATE TABLE frames (chunk INTEGER, frame_idx INTEGER, frame_number INTEGER, frame_time REAL);" : Stmt K)])
      = [Stmt.createTable "CREATE TABLE frames (chunk INTEGER, frame_idx INTEGER, frame_number INTEGER, frame_time REAL);"] := rfl
  have h4 : (List.filter keepLine
      [(Stmt.createTable "CREATE TABLE chunks (chunk INTEGER, chunk_path TEXT);" : Stmt K)])
      = [Stmt.createTable "CREATE TABLE chunks (chunk INTEGER, chunk_path TEXT);"] := rfl
  have h5 : (List.filter keepLine
      [(Stmt.createTable "CREATE TABLE index_information (name TEXT, value TEXT);" : Stmt K)])
      = [Stmt.createTable "CREATE TABLE index_information (name TEXT, value TEXT);"] := rfl
  have h6 : (List.filter keepLine
      [(Stmt.createTable "CREATE TABLE summary (name TEXT, value REAL);" : Stmt K)])
      = [Stmt.createTable "CREATE TABLE summary (name TEXT, value REAL);"] := rfl
  have h7 : (List.filter keepLine
      [(Stmt.createTable "CREATE INDEX chunk_index ON frames (chunk, frame_idx);" : Stmt K)])
      = [Stmt.createTable "CREATE INDEX chunk_index ON frames (chunk, frame_idx);"] := rfl
  simp only [iterdump, List.filter_append, hF, hC, hI, hS, h1, h2, h3, h4, h5, h6, h7]
  simp only [List.foldl_append, List.foldl_cons, List.foldl_nil,
    foldl_insertFrames, foldl_insertChunks, foldl_insertInfos, foldl_insertSummaries]
  simp [execStmt, emptyDB]

/-- to_file reproduces the dumped database exactly. -/
theorem to_file_eq {K : Type} (s : ImgStoreIndex K) : to_file s = s.db :=
  restore_iterdump s.db

/-- For a chunk with at least two rows, the window query of
get_chunk_interval fetches exactly the key value of the minimal-frame_number
row followed by the key value of the maximal-frame_number row of the sorted
scan. -/
theorem intervalData_two {K : Type} [LinearOrderedCommRing K] (s : ImgStoreIndex K) (c : ℤ)
    (m : Metavar) (h2 : 2 ≤ (chunkRows s c).length) :
    ∃ f g, (List.insertionSort fnDesc (chunkRows s c)).getLast? = some f ∧
      (List.insertionSort fnDesc (chunkRows s c)).head? = some g ∧
      intervalData s c m = [keyVal m f, keyVal m g] := by
  have hlen : (List.insertionSort fnDesc (chunkRows s c)).length = (chunkRows s c).length :=
    List.length_insertionSort fnDesc (chunkRows s c)
  unfold intervalData
  cases hsrt : List.insertionSort fnDesc (chunkRows s c) with
  | nil =>
    rw [hsrt] at hlen
    simp at hlen
    omega
  | cons b u =>
    have hu : u ≠ [] := by
      intro hnil
      rw [hsrt, hnil] at hlen
      simp at hlen
      omega
    refine ⟨(b :: u).getLast (by simp), b, List.getLast?_eq_getLast _ _, rfl, ?_⟩
    dsimp only
    rw [withRn_filter_ends u b hu]
    simp

/-- When some chunk in the list makes get_chunk_interval raise, the interval
dict comprehension raises as well. -/
theorem intervalsFor_error {K : Type} [LinearOrderedCommRing K] (s : ImgStoreIndex K)
    (m : Metavar) :
    ∀ (cl : List ℤ), (∃ c ∈ cl, ∃ e, get_chunk_interval s c m = Except.error e) →
      ∃ e2, intervalsFor s m cl = Except.error e2 := by
  intro cl
  induction cl with
  | nil => intro h; obtain ⟨c, hc, _⟩ := h; simp at hc
  | cons a rest ih =>
    intro h
    obtain ⟨c, hc, e, he⟩ := h
    unfold intervalsFor
    cases ha : get_chunk_interval s a m with
    | error e3 => exact ⟨e3, rfl⟩
    | ok v =>
      rcases List.mem_cons.mp hc with hcc | hcc
      · subst hcc
        rw [ha] at he
        exact absurd he (by simp)
      · obtain ⟨e2, he2⟩ := ih ⟨c, hcc, e, he⟩
        rw [he2]
        exact ⟨e2, rfl⟩

/-- The unrestricted nearest search always yields a row on a store with at
least one frame, for any positive recursion budget. -/
theorem nearest_all_total {K : Type} [LinearOrderedCommRing K] (s : ImgStoreIndex K)
    (q : Metavar) (v : K) (hne : s.db.frames ≠ []) :
    ∀ fuel, 1 ≤ fuel →
      (find_chunk_nearest s q v Direction.all fuel).isSome = true := by
  intro fuel h1
  cases fuel with
  | zero => omega
  | succ n =>
    have hsne : List.insertionSort (absRel q v) s.db.frames ≠ [] := by
      intro hnil
      have := List.length_insertionSort (absRel q v) s.db.frames
      rw [hnil] at this
      simp at this
      exact hne (List.length_eq_zero.mp this.symm)
    unfold find_chunk_nearest
    dsimp only
    cases hh : (List.insertionSort (absRel q v) s.db.frames).head? with
    | none => exact absurd (List.head?_eq_none_iff.mp hh) hsne
    | some f => simp [hh]

/-! Claim theorems. -/

/-- C1 (amended): for every chunk with at least two frame records,
get_chunk_interval returns the pair (key value of a row carrying the
smallest frame_number of the chunk, key value of a row carrying the largest
frame_number) — for key = frame_number this is (min, max), e.g. (10, 12) on
the worked example, not (12, 10) — and it returns None for a chunk with no
rows.  (A chunk with exactly one row raises instead, see C9.) -/
theorem C1_chunk_interval {K : Type} [LinearOrderedCommRing K] (s : ImgStoreIndex K)
    (c : ℤ) (m : Metavar) :
    (2 ≤ (chunkRows s c).length →
      ∃ f g, f ∈ chunkRows s c ∧ g ∈ chunkRows s c ∧
        (∀ r ∈ chunkRows s c,
          f.frame_number ≤ r.frame_number ∧ r.frame_number ≤ g.frame_number) ∧
        get_chunk_interval s c m = Except.ok (some (keyVal m f, keyVal m g)))
    ∧ ((chunkRows s c).length = 0 → get_chunk_interval s c m = Except.ok none) := by
  constructor
  · intro h2
    obtain ⟨f, g, hlast, hhead, hdata⟩ := intervalData_two s c m h2
    have hsne : List.insertionSort fnDesc (chunkRows s c) ≠ [] := by
      intro hnil
      rw [hnil] at hhead
      exact absurd hhead (by simp)
    have hsorted : List.Sorted fnDesc (List.insertionSort fnDesc (chunkRows s c)) :=
      List.sorted_insertionSort fnDesc (chunkRows s c)
    have hfl : (List.insertionSort fnDesc (chunkRows s c)).getLast hsne = f :=
      Option.some.inj ((List.getLast?_eq_getLast _ hsne).symm.trans hlast)
    have hgh : (List.insertionSort fnDesc (chunkRows s c)).head hsne = g :=
      Option.some.inj ((List.head?_eq_head hsne).symm.trans hhead)
    refine ⟨f, g, ?_, ?_, ?_, ?_⟩
    · exact (List.mem_insertionSort fnDesc).mp (hfl ▸ List.getLast_mem hsne)
    · exact (List.mem_insertionSort fnDesc).mp (hgh ▸ List.head_mem hsne)
    · intro r hr
      have hrs : r ∈ List.insertionSort fnDesc (chunkRows s c) :=
        (List.mem_insertionSort fnDesc).mpr hr
      constructor
      · rw [← hfl]
        exact sorted_getLast_fn_min _ hsorted hsne r hrs
      · rw [← hgh]
        exact sorted_head_fn_max hsorted hsne r hrs
    · simp [get_chunk_interval, hdata]
  · intro h0
    have hrows : chunkRows s c = [] := List.length_eq_zero.mp h0
    simp [get_chunk_interval, intervalData, hrows, List.insertionSort, withRn]

/-- C1 counterexample: on the worked example store, chunk 0 with
frame_number values 10, 11, 12 yields (10, 12) — the claimed (12, 10) is
not what the code returns. -/
theorem C1_counterexample :
    get_chunk_interval exStore 0 Metavar.frame_number =
        Except.ok (some ((10 : ℤ), (12 : ℤ))) ∧
      get_chunk_interval exStore 0 Metavar.frame_number ≠
        Except.ok (some ((12 : ℤ), (10 : ℤ))) := by
  decide

/-- C1 witness: the worked example chunk 0 has three rows and the
interval comes back as claimed by the amended statement. -/
theorem C1_witness :
    2 ≤ (chunkRows exStore 0).length ∧
    (∃ f g, f ∈ chunkRows exStore 0 ∧ g ∈ chunkRows exStore 0 ∧
      (∀ r ∈ chunkRows exStore 0,
        f.frame_number ≤ r.frame_number ∧ r.frame_number ≤ g.frame_number) ∧
      get_chunk_interval exStore 0 Metavar.frame_number =
        Except.ok (some (keyVal Metavar.frame_number f, keyVal Metavar.frame_number g))) :=
  ⟨by decide, (C1_chunk_interval exStore 0 Metavar.frame_number).1 (by decide)⟩

/-- C9 (confirmed): a chunk with exactly one frame record makes
get_chunk_interval raise the tuple-unpacking ValueError for either key, and
the derived chunk_index property (with nothing memoized and no cache file)
raises as well whenever that chunk is in the chunk list. -/
theorem C9_single_frame_chunk {K : Type} [LinearOrderedCommRing K] (s : ImgStoreIndex K)
    (c : ℤ) (h1 : (chunkRows s c).length = 1) :
    (∀ m, get_chunk_interval s c m =
      Except.error "ValueError: not enough values to unpack")
    ∧ (c ∈ s.chunks → ∃ e, chunk_index s none none = Except.error e) := by
  obtain ⟨f, hf⟩ := List.length_eq_one.mp h1
  have hone : ∀ m, get_chunk_interval s c m =
      Except.error "ValueError: not enough values to unpack" := by
    intro m
    simp [get_chunk_interval, intervalData, hf, List.insertionSort, List.orderedInsert, withRn]
  refine ⟨hone, ?_⟩
  intro hc
  unfold chunk_index
  cases s.chunk_n_and_chunk_paths with
  | none => exact ⟨"TypeError: NoneType is not iterable", rfl⟩
  | some l =>
    obtain ⟨e2, he2⟩ :=
      intervalsFor_error s Metavar.frame_number s.chunks
        ⟨c, hc, _, hone Metavar.frame_number⟩
    dsimp only
    rw [he2]
    exact ⟨e2, rfl⟩

/-- C9 witness: the single-frame store exhibits both failures. -/
theorem C9_witness :
    get_chunk_interval exSingle 0 Metavar.frame_number =
      Except.error "ValueError: not enough values to unpack" ∧
    (∃ e, chunk_index exSingle none none = Except.error e) :=
  ⟨(C9_single_frame_chunk exSingle 0 (by decide)).1 Metavar.frame_number,
   (C9_single_frame_chunk exSingle 0 (by decide)).2 (by decide)⟩

/-- C2 (confirmed): on a store with at least one frame, find_chunk_nearest
yields a row for every query key, every value and every direction in
all/future/past — whenever the directional query is empty it falls back to
the unrestricted search, which is total on a non-empty store, so at most
one self-call (fuel at least two) is ever needed. -/
theorem C2_nearest_never_empty {K : Type} [LinearOrderedCommRing K] (s : ImgStoreIndex K)
    (q : Metavar) (v : K) (d : Direction) (hne : s.db.frames ≠ []) :
    ∀ fuel, 2 ≤ fuel → (find_chunk_nearest s q v d fuel).isSome = true := by
  intro fuel h2
  cases fuel with
  | zero => omega
  | succ n =>
    have hn1 : 1 ≤ n := by omega
    unfold find_chunk_nearest
    dsimp only
    cases d with
    | all =>
      cases hh : (List.insertionSort (absRel q v) s.db.frames).head? with
      | none => exact nearest_all_total s q v hne n hn1
      | some f => rfl
    | future =>
      cases hh : (List.insertionSort (absRel q v)
          (s.db.frames.filter (fun f => decide (v - keyVal q f ≤ 0)))).head? with
      | none => exact nearest_all_total s q v hne n hn1
      | some f => rfl
    | past =>
      cases hh : (List.insertionSort (absRel q v)
          (s.db.frames.filter (fun f => decide (0 ≤ v - keyVal q f)))).head? with
      | none => exact nearest_all_total s q v hne n hn1
      | some f => rfl

/-- C2 witness: a future query beyond every recorded frame_number of the
worked example store still yields a row through the fallback. -/
theorem C2_witness :
    (find_chunk_nearest exStore Metavar.frame_number 999 Direction.future 2).isSome = true :=
  C2_nearest_never_empty exStore Metavar.frame_number 999 Direction.future (by decide) 2
    (by decide)

/-- C7 (code_bug): on a store with zero frames find_chunk_nearest never
produces a result for any query, value or direction, at any recursion
depth: the directional query is empty, the fallback to direction="all" is
empty too, and the method keeps calling itself — there is no
InvalidArgumentError and no explicit empty-store check anywhere on this
path (Python eventually aborts the recursion with RecursionError). -/
theorem C7_nearest_empty_store_diverges {K : Type} [LinearOrderedCommRing K]
    (s : ImgStoreIndex K) (h : s.db.frames = []) (q : Metavar) (v : K) :
    ∀ (fuel : ℕ) (d : Direction), find_chunk_nearest s q v d fuel = none := by
  intro fuel
  induction fuel with
  | zero => intro d; rfl
  | succ n ih =>
    intro d
    cases d <;>
      simp [find_chunk_nearest, h, List.insertionSort] <;>
      exact ih Direction.all

/-- C7 witness: the empty store yields nothing even with recursion budget
to spare. -/
theorem C7_witness :
    find_chunk_nearest exEmpty Metavar.frame_number 0 Direction.future 5 = none :=
  C7_nearest_empty_store_diverges exEmpty rfl Metavar.frame_number 0 5 Direction.future

/-- C3 (code_bug): opening a store with a nonzero frame count whose stored
frame_max summary value is infinite keeps the infinity: the np.isreal check
used by __init__ is true for every float (it tests the imaginary part, not
finiteness), so the claimed inf-to-nan substitution never happens. -/
theorem C3_isreal_keeps_inf :
    ImgStoreIndex.init dbInf "" none = Except.ok sInf ∧
      sInf.frame_max = RVal.posInf ∧ sInf.frame_max ≠ RVal.nan := by
  refine ⟨rfl, rfl, ?_⟩
  decide

/-- C5 (amended): for every negative rowid, get_all_metadata returns the
single last row in insertion order — the magnitude of the rowid is ignored
(the query is ORDER BY rowid DESC LIMIT 1 with no offset), so -k does not
address the k-th row from the end. -/
theorem C5_negative_rowid_returns_last {K : Type} (s : ImgStoreIndex K) (r : ℤ)
    (hr : r < 0) (hne : s.db.frames ≠ []) :
    get_all_metadata s (some r) =
      [((s.db.frames.getLast hne).frame_number, (s.db.frames.getLast hne).frame_time)] := by
  have h0 : ¬ (r = 0) := by omega
  have h1 : ¬ (0 < r) := by omega
  simp [get_all_metadata, h0, h1, List.getLast?_eq_getLast s.db.frames hne]

/-- C5 counterexample: on the worked example store (five rows), rowid = -2
returns the last row (14, 140), not the second row from the end (13, 130)
demanded by the claim. -/
theorem C5_counterexample :
    get_all_metadata exStore (some (-2)) = [((14 : ℤ), (140 : ℤ))] ∧
      get_all_metadata exStore (some (-2)) ≠ [((13 : ℤ), (130 : ℤ))] := by
  decide

/-- C5 witness: rowid = -3 on the worked example store also returns the
last row. -/
theorem C5_witness :
    get_all_metadata exStore (some (-3)) =
      [((exStore.db.frames.getLast (by decide)).frame_number,
        (exStore.db.frames.getLast (by decide)).frame_time)] :=
  C5_negative_rowid_returns_last exStore (-3) (by decide) (by decide)

/-- C4 (confirmed): exporting an opened store with to_file and reopening
the result with new_from_file preserves frame_count, the four summary
attributes, and the frames and chunks tables row for row. -/
theorem C4_roundtrip {K : Type} [LinearOrderedCommRing K] (db : IndexDB K) (p p2 : String)
    (c : Option (List (ℤ × String))) (s : ImgStoreIndex K)
    (h : ImgStoreIndex.init db p c = Except.ok s) :
    ∃ s2, new_from_file (to_file s) p2 = Except.ok s2 ∧
      s2.frame_count = s.frame_count ∧
      s2.frame_time_min = s.frame_time_min ∧ s2.frame_time_max = s.frame_time_max ∧
      s2.frame_min = s.frame_min ∧ s2.frame_max = s.frame_max ∧
      s2.db.frames = s.db.frames ∧ s2.db.chunks = s.db.chunks := by
  obtain ⟨hdb, hp, hc, hfc, hshift⟩ := init_ok_full h p2 none
  refine ⟨{ s with path := p2, chunk_n_and_chunk_paths := none },
    ?_, rfl, rfl, rfl, rfl, rfl, rfl, rfl⟩
  unfold new_from_file
  rw [to_file_eq]
  rw [← hdb] at hshift
  exact hshift

/-- C4 witness: the worked example store round-trips. -/
theorem C4_witness :
    ∃ s2, new_from_file (to_file exStore) "out" = Except.ok s2 ∧
      s2.frame_count = exStore.frame_count ∧
      s2.frame_time_min = exStore.frame_time_min ∧
      s2.frame_time_max = exStore.frame_time_max ∧
      s2.frame_min = exStore.frame_min ∧ s2.frame_max = exStore.frame_max ∧
      s2.db.frames = exStore.db.frames ∧ s2.db.chunks = exStore.db.chunks :=
  C4_roundtrip exDB "" "out" (some exPairs) exStore exStore_init

/-- C6 (amended): the exact-match lookup returns (chunk, frame_idx) when
exactly one row carries the key value, returns None when no row matches,
and — because every matching row is flattened into the unpacked list — the
claim fails when several rows share the value (see the counterexample). -/
theorem C6_exact_lookup {K : Type} [LinearOrderedCommRing K] (s : ImgStoreIndex K)
    (v : K) (m : Metavar) :
    ((s.db.frames.filter (fun f => decide (keyVal m f = v))) = [] →
      get_chunk_and_frame_idx_ s v m = Except.ok none)
    ∧ (∀ f, (s.db.frames.filter (fun f2 => decide (keyVal m f2 = v))) = [f] →
      get_chunk_and_frame_idx_ s v m = Except.ok (some (f.chunk, f.frame_idx))) := by
  constructor
  · intro h
    simp [get_chunk_and_frame_idx_, h]
  · intro f h
    simp [get_chunk_and_frame_idx_, h]

/-- C6 counterexample: with two rows sharing frame_number 5, the lookup
raises the unpacking ValueError instead of returning the first row. -/
theorem C6_counterexample :
    get_chunk_and_frame_idx_ exDup (5 : ℤ) Metavar.frame_number =
        Except.error "ValueError: too many values to unpack" ∧
      get_chunk_and_frame_idx_ exDup (5 : ℤ) Metavar.frame_number ≠
        Except.ok (some ((0 : ℤ), (0 : ℤ))) := by
  decide

/-- C6 witness: looking up the unique frame_number 13 on the worked example
store returns its (chunk, frame_idx). -/
theorem C6_witness :
    get_chunk_and_frame_idx_ exStore (13 : ℤ) Metavar.frame_number =
      Except.ok (some (1, 0)) :=
  (C6_exact_lookup exStore 13 Metavar.frame_number).2 ⟨1, 0, 13, 130⟩ (by decide)

/-- C8 (confirmed): find_chunk returns the sentinel (-1, -1), and does not
raise, for every not-found lookup: a frame_number value matching no row, a
frame_time value matching no row, or an index offset beyond the store. -/
theorem C8_find_chunk_sentinel {K : Type} [LinearOrderedCommRing K] [FloorRing K]
    (s : ImgStoreIndex K) (v : K) :
    ((∀ f ∈ s.db.frames, (f.frame_number : K) ≠ v) →
      find_chunk s FindWhat.frame_number v = (-1, -1))
    ∧ ((∀ f ∈ s.db.frames, f.frame_time ≠ v) →
      find_chunk s FindWhat.frame_time v = (-1, -1))
    ∧ (s.db.frames.length ≤ (intTrunc v).toNat →
      find_chunk s FindWhat.index v = (-1, -1)) := by
  refine ⟨?_, ?_, ?_⟩
  · intro h
    have hfil : s.db.frames.filter (fun f => decide ((f.frame_number : K) = v)) = [] :=
      List.filter_eq_nil_iff.mpr (by
        intro f hf
        simpa using h f hf)
    simp [find_chunk, hfil]
  · intro h
    have hfil : s.db.frames.filter (fun f => decide (f.frame_time = v)) = [] :=
      List.filter_eq_nil_iff.mpr (by
        intro f hf
        simpa using h f hf)
    simp [find_chunk, hfil]
  · intro h
    have hdrop : s.db.frames.drop (intTrunc v).toNat = [] :=
      List.drop_eq_nil_of_le h
    simp [find_chunk, hdrop]

/-- C8 witness: the value 999 is absent from the worked example store and
yields the sentinel. -/
theorem C8_witness :
    find_chunk exStore FindWhat.frame_number (999 : ℤ) = (-1, -1) :=
  (C8_find_chunk_sentinel exStore (999 : ℤ)).1 (by decide)

/-- C10 (confirmed): on every store opened through new_from_file, accessing
chunk_index raises: _chunk_n_and_chunk_paths is None on that path, and the
property sorts it for the cache content hash before any memo or cache-file
lookup, so no cache state can save it. -/
theorem C10_chunk_index_unreachable_after_load {K : Type} [LinearOrderedCommRing K]
    (db : IndexDB K) (p : String) (s : ImgStoreIndex K)
    (h : new_from_file db p = Except.ok s)
    (memo cached : Option (ChunkIndexData K)) :
    chunk_index s memo cached = Except.error "TypeError: NoneType is not iterable" := by
  unfold new_from_file at h
  obtain ⟨hdb, hp, hc, hfc, _⟩ := init_ok_full h p none
  unfold chunk_index
  rw [hc]

/-- C10 witness: reopening the worked example dump and touching chunk_index
fails regardless of the cache state. -/
theorem C10_witness :
    chunk_index exStoreF none none =
      Except.error "TypeError: NoneType is not iterable" :=
  C10_chunk_index_unreachable_after_load exDB "p" exStoreF rfl none none

end ImgStore
